import Mathlib

/-!
Shallow embedding of the D2Q9 lattice-Boltzmann Taylor-Green solver
(`src/implementation/LBM.cpp`, `src/implementation/main.cpp`) over exact
rational arithmetic, together with theorems settling the specification
claims about it.  Machine `double` arithmetic is modelled by `ℚ`; the
transcendental library calls (`sqrt`, `sin`, `cos`, `exp`, `M_PI`) are
modelled as opaque-to-the-formulas function parameters so that structural
identities between code paths can be stated exactly.
-/

namespace LBMV

/-- Modelled from the spec: the header `LBM.h` declaring the lattice weights is
absent from the sources; the spec fixes the standard D2Q9 weights (rest
direction weight), summing with the others to 1. -/
def w0 : ℚ := 4/9

/-- Modelled from the spec: standard D2Q9 shared weight of the four
axis-aligned directions (`LBM.h` is absent from the sources). -/
def ws : ℚ := 1/9

/-- Modelled from the spec: standard D2Q9 shared weight of the four diagonal
directions (`LBM.h` is absent from the sources). -/
def wd : ℚ := 1/36

/-- The per-direction weight of the D2Q9 lattice under the source's direction
numbering (rest = 0, axis = 1..4, diagonal = 5..8). -/
def wq : ℕ → ℚ
  | 0 => w0
  | 1 => ws
  | 2 => ws
  | 3 => ws
  | 4 => ws
  | 5 => wd
  | 6 => wd
  | 7 => wd
  | 8 => wd
  | _ => 0

/-- The mutable grid state of the solver: the rest-population field `f0`, the
two directional-population generations `f1` (current) and `f2` (next), and the
macroscopic fields `r`, `u`, `v` (density and the two velocity components).
Fields are total functions on coordinates; the program only touches indices
below the grid extents. -/
@[ext]
structure LBMState where
  f0 : ℕ → ℕ → ℚ
  f1 : ℕ → ℕ → ℕ → ℚ
  f2 : ℕ → ℕ → ℕ → ℚ
  r : ℕ → ℕ → ℚ
  u : ℕ → ℕ → ℚ
  v : ℕ → ℕ → ℚ

/-- Point update of a two-dimensional field: the store `g[x,y] = val`. -/
def upd2 (g : ℕ → ℕ → ℚ) (x y : ℕ) (val : ℚ) : ℕ → ℕ → ℚ :=
  fun a b => if a = x ∧ b = y then val else g a b

/-- The eight stores `f[x,y,i] = vals i`, `i = 1..8`, performed by the kernel
at one site (LBM.cpp lines 184-199). -/
def updDirs (g : ℕ → ℕ → ℕ → ℚ) (x y : ℕ) (vals : ℕ → ℚ) : ℕ → ℕ → ℕ → ℚ :=
  fun a b i => if a = x ∧ b = y ∧ 1 ≤ i ∧ i ≤ 8 then vals i else g a b i

/-- LBM.cpp lines 128-148: the nine populations pulled at site `(x,y)` during
streaming — the rest population locally from `f0`, direction `i = 1..8` from
the wrapped neighbor, exactly as indexed in the source. -/
def pull (NX NY : ℕ) (f0 : ℕ → ℕ → ℚ) (f1 : ℕ → ℕ → ℕ → ℚ) (x y : ℕ) : ℕ → ℚ
  | 0 => f0 x y
  | 1 => f1 ((NX+x-1) % NX) y 1
  | 2 => f1 x ((NY+y-1) % NY) 2
  | 3 => f1 ((x+1) % NX) y 3
  | 4 => f1 x ((y+1) % NY) 4
  | 5 => f1 ((NX+x-1) % NX) ((NY+y-1) % NY) 5
  | 6 => f1 ((x+1) % NX) ((NY+y-1) % NY) 6
  | 7 => f1 ((x+1) % NX) ((y+1) % NY) 7
  | 8 => f1 ((NX+x-1) % NX) ((y+1) % NY) 8
  | _ => 0

/-- LBM.cpp line 151: the streamed density, the sum of the nine pulled
populations. -/
def rhoAt (ft : ℕ → ℚ) : ℚ :=
  ft 0 + ft 1 + ft 2 + ft 3 + ft 4 + ft 5 + ft 6 + ft 7 + ft 8

/-- LBM.cpp lines 152-154: the x-velocity moment `rhoinv * (ft1+ft5+ft8 -
(ft3+ft6+ft7))`. -/
def uxAt (ft : ℕ → ℚ) : ℚ :=
  (1 / rhoAt ft) * (ft 1 + ft 5 + ft 8 - (ft 3 + ft 6 + ft 7))

/-- LBM.cpp lines 152-155: the y-velocity moment `rhoinv * (ft2+ft5+ft6 -
(ft4+ft7+ft8))`. -/
def uyAt (ft : ℕ → ℚ) : ℚ :=
  (1 / rhoAt ft) * (ft 2 + ft 5 + ft 6 - (ft 4 + ft 7 + ft 8))

/-- LBM.cpp lines 121-122 and 165-199: the post-collision value of each
direction at one site, computed from the nine pulled populations `ft`;
`tauinv = 2/(6 nu + 1)` and every direction relaxes as
`omtauinv * ft_i + tauinv * w_i * rho * (omusq + cidot3u*(1 + 0.5*cidot3u))`. -/
def collide (nu : ℚ) (ft : ℕ → ℚ) : ℕ → ℚ :=
  let tauinv : ℚ := 2/(6*nu+1)
  let omtauinv : ℚ := 1 - tauinv
  let rho := rhoAt ft
  let ux := uxAt ft
  let uy := uyAt ft
  let tw0r := tauinv*w0*rho
  let twsr := tauinv*ws*rho
  let twdr := tauinv*wd*rho
  let omusq := 1 - (3/2)*(ux*ux+uy*uy)
  let tux := 3*ux
  let tuy := 3*uy
  fun i =>
    match i with
    | 0 => omtauinv*(ft 0) + tw0r*omusq
    | 1 => let cidot3u := tux
           omtauinv*(ft 1) + twsr*(omusq + cidot3u*(1+(1/2)*cidot3u))
    | 2 => let cidot3u := tuy
           omtauinv*(ft 2) + twsr*(omusq + cidot3u*(1+(1/2)*cidot3u))
    | 3 => let cidot3u := -tux
           omtauinv*(ft 3) + twsr*(omusq + cidot3u*(1+(1/2)*cidot3u))
    | 4 => let cidot3u := -tuy
           omtauinv*(ft 4) + twsr*(omusq + cidot3u*(1+(1/2)*cidot3u))
    | 5 => let cidot3u := tux+tuy
           omtauinv*(ft 5) + twdr*(omusq + cidot3u*(1+(1/2)*cidot3u))
    | 6 => let cidot3u := tuy-tux
           omtauinv*(ft 6) + twdr*(omusq + cidot3u*(1+(1/2)*cidot3u))
    | 7 => let cidot3u := -(tux+tuy)
           omtauinv*(ft 7) + twdr*(omusq + cidot3u*(1+(1/2)*cidot3u))
    | 8 => let cidot3u := tux-tuy
           omtauinv*(ft 8) + twdr*(omusq + cidot3u*(1+(1/2)*cidot3u))
    | _ => 0

/-- LBM.cpp lines 124-200, one iteration of the fused loop body at site
`(x,y)`: pull the nine populations, compute the moments, optionally publish
`rho, ux, uy`, then store the post-collision rest population back into `f0`
and the eight post-collision directional populations into `f2`. -/
def updateSite (NX NY : ℕ) (nu : ℚ) (sv : Bool) (st : LBMState) (x y : ℕ) :
    LBMState :=
  let ft := pull NX NY st.f0 st.f1 x y
  let rho := rhoAt ft
  let ux := uxAt ft
  let uy := uyAt ft
  let fpost := collide nu ft
  { f0 := upd2 st.f0 x y (fpost 0)
    f1 := st.f1
    f2 := updDirs st.f2 x y fpost
    r := if sv then upd2 st.r x y rho else st.r
    u := if sv then upd2 st.u x y ux else st.u
    v := if sv then upd2 st.v x y uy else st.v }

/-- The sites of the sweep in the source's order: `y` in the outer loop, `x`
in the inner loop (LBM.cpp lines 124-126). -/
def siteList (NX NY : ℕ) : List (ℕ × ℕ) :=
  (List.range NY).flatMap fun y => (List.range NX).map fun x => (x, y)

/-- LBM.cpp lines 118-202, `stream_collide_save`: the full sequential sweep of
the fused stream–collide–(optionally save) kernel over the grid. -/
def stream_collide_save (NX NY : ℕ) (nu : ℚ) (st : LBMState) (sv : Bool) :
    LBMState :=
  (siteList NX NY).foldl (fun s p => updateSite NX NY nu sv s p.1 p.2) st

/-- LBM.cpp lines 77-113 (the loop body of `init_equilibrium`): the nine
second-order equilibrium populations for macroscopic state `(rho, ux, uy)`,
`feq_i = w_i rho [1 - 3/2 (u.u) + (ci . 3u)(1 + 1/2 (ci . 3u))]` with the
direction-wise `cidot3u` values exactly as in the source. -/
def feq (rho ux uy : ℚ) : ℕ → ℚ :=
  let w0r := w0*rho
  let wsr := ws*rho
  let wdr := wd*rho
  let omusq := 1 - (3/2)*(ux*ux+uy*uy)
  let tux := 3*ux
  let tuy := 3*uy
  fun i =>
    match i with
    | 0 => w0r*omusq
    | 1 => let cidot3u := tux
           wsr*(omusq + cidot3u*(1+(1/2)*cidot3u))
    | 2 => let cidot3u := tuy
           wsr*(omusq + cidot3u*(1+(1/2)*cidot3u))
    | 3 => let cidot3u := -tux
           wsr*(omusq + cidot3u*(1+(1/2)*cidot3u))
    | 4 => let cidot3u := -tuy
           wsr*(omusq + cidot3u*(1+(1/2)*cidot3u))
    | 5 => let cidot3u := tux+tuy
           wdr*(omusq + cidot3u*(1+(1/2)*cidot3u))
    | 6 => let cidot3u := tuy-tux
           wdr*(omusq + cidot3u*(1+(1/2)*cidot3u))
    | 7 => let cidot3u := -(tux+tuy)
           wdr*(omusq + cidot3u*(1+(1/2)*cidot3u))
    | 8 => let cidot3u := tux-tuy
           wdr*(omusq + cidot3u*(1+(1/2)*cidot3u))
    | _ => 0

/-- LBM.cpp lines 71-116, `init_equilibrium`: seed the rest population `f0`
and the directional generation `f1` with the equilibrium populations of the
macroscopic fields, at every grid site. -/
def init_equilibrium (NX NY : ℕ) (st : LBMState) : LBMState :=
  { st with
    f0 := fun x y =>
      if x < NX ∧ y < NY then feq (st.r x y) (st.u x y) (st.v x y) 0
      else st.f0 x y
    f1 := fun x y i =>
      if x < NX ∧ y < NY ∧ 1 ≤ i ∧ i ≤ 8 then
        feq (st.r x y) (st.u x y) (st.v x y) i
      else st.f1 x y i }

/-- main.cpp lines 86-88: at startup the current-generation view `f1` is
bound to the first allocation and the next-generation view `f2` to the
second; an allocation is modelled as a boolean (`false` = the storage behind
`ptr_f1`, `true` = the storage behind `ptr_f2`). -/
def initialGens : Bool × Bool := (false, true)

/-- main.cpp lines 134-135: the end-of-timestep reassignment
`f1 = mdspan(ptr_f2.get(),...); f2 = mdspan(ptr_f1.get(),...)`, which rebinds
both generation views to fixed allocations, ignoring their previous roles. -/
def endOfStepRebind (_g : Bool × Bool) : Bool × Bool := (true, false)

/-- The pair (allocation read by the kernel, allocation written by the
kernel) in effect at iteration `n` of the driver loop
(main.cpp lines 112-147). -/
def gensAtStep : ℕ → Bool × Bool
  | 0 => initialGens
  | n+1 => endOfStepRebind (gensAtStep n)

/-- LBM.cpp lines 275-283 (`save_scalar`): the dump buffer `tmp` after the
copy loop `for (i = 0; i < n; i++) for (j = 0; j < n; j++) tmp[i+j] =
scalar[i,j]`, where `n` is the timestep-index argument of the call and
`init` is the buffer's prior (uninitialized) contents, after which the whole
buffer is handed to `fwrite`. -/
def saveBuffer (scalar : ℕ → ℕ → ℚ) (n : ℕ) (init : ℕ → ℚ) : ℕ → ℚ :=
  ((List.range n).flatMap fun i => (List.range n).map fun j => (i, j)).foldl
    (fun tmp p => fun k => if k = p.1 + p.2 then scalar p.1 p.2 else tmp k)
    init

/-- The file contents the spec prescribes for a scalar export: all NX×NY
values of the field in row-major order, site `(x,y)` at offset `x*NY + y`
(the source's mdspan layout). -/
def rowMajorDump (NY : ℕ) (scalar : ℕ → ℕ → ℚ) : ℕ → ℚ :=
  fun k => scalar (k / NY) (k % NY)

/-- Outcome of one `save_scalar` call as seen by the caller. -/
inductive ExportOutcome
  | ok
  | reportedAndContinued
  | undefinedBehavior
deriving DecidableEq

/-- LBM.cpp lines 272-299 (`save_scalar`), control-flow skeleton of the I/O:
`fopen` is modelled by its outcome (`none` = returned NULL).  The source
never checks the result of `fopen`: the stream is passed straight to
`fwrite` and `fclose`, which on a NULL stream is undefined behavior; only
afterwards is `ferror(fout)` consulted (on the already-closed stream) to
choose between the error report and the success message.  The `some` branch
charitably credits the source with the report it prints when `ferror` is
set. -/
def save_scalar_export (fopenResult : Option Unit) (writeFailed : Bool) :
    ExportOutcome :=
  match fopenResult with
  | none => ExportOutcome.undefinedBehavior
  | some _ =>
      if writeFailed then ExportOutcome.reportedAndContinued
      else ExportOutcome.ok

/-- The x-component of each direction's velocity, read off the numbering
diagram in LBM.cpp lines 133-136 (`6 2 5 / 3 0 1 / 7 4 8`). -/
def cx : ℕ → ℤ
  | 1 => 1
  | 2 => 0
  | 3 => -1
  | 4 => 0
  | 5 => 1
  | 6 => -1
  | 7 => -1
  | 8 => 1
  | _ => 0

/-- The y-component of each direction's velocity, read off the numbering
diagram in LBM.cpp lines 133-136. -/
def cy : ℕ → ℤ
  | 1 => 0
  | 2 => 1
  | 3 => 0
  | 4 => -1
  | 5 => 1
  | 6 => 1
  | 7 => -1
  | 8 => -1
  | _ => 0

/-- The x-coordinate the spec prescribes as streaming source for direction
`i` at column `x`: displace by the negative of the direction's velocity and
wrap modulo NX. -/
def srcX (NX x i : ℕ) : ℕ := (((x : ℤ) - cx i) % (NX : ℤ)).toNat

/-- The y-coordinate the spec prescribes as streaming source for direction
`i` at row `y`. -/
def srcY (NY y i : ℕ) : ℕ := (((y : ℤ) - cy i) % (NY : ℤ)).toNat

/-- The uniform quiescent equilibrium state of C9: on every grid site the
rest population is `w0 * rho0` and directional population `i` is
`wq i * rho0` — the equilibrium populations for density `rho0` and zero
velocity. -/
def uniformPop (NX NY : ℕ) (rho0 : ℚ) (st : LBMState) : Prop :=
  (∀ x y, x < NX → y < NY → st.f0 x y = w0 * rho0) ∧
  (∀ x y i, x < NX → y < NY → 1 ≤ i → i ≤ 8 → st.f1 x y i = wq i * rho0)

/-- One whole timestep under the spec's generation discipline: run the
sweep, then flip the roles of the two directional generations. -/
def sweepSwap (NX NY : ℕ) (nu : ℚ) (sv : Bool) (st : LBMState) : LBMState :=
  let st1 := stream_collide_save NX NY nu st sv
  { st1 with f1 := st1.f2, f2 := st1.f1 }

/-- The mathematical library routines (`sqrt`, `cos`, `sin`, `exp`) and the
constant `M_PI` used by the analytic solution, modelled as parameters: the
theorems below are structural identities between code paths that hold for
any values of these functions. -/
structure MathFns where
  sqrtF : ℚ → ℚ
  cosF : ℚ → ℚ
  sinF : ℚ → ℚ
  expF : ℚ → ℚ
  piF : ℚ

/-- LBM.cpp lines 24-40 (`taylor_green`, per-site overload): the analytic
Taylor-Green density and velocity at timestep `t` and site `(x,y)`, returned
as the triple `(rho, ux, uy)` that the source stores into `r,u,v` at
`[x,y]`. -/
def taylor_green_pt (m : MathFns) (NX NY : ℕ) (nu u_max rho0 : ℚ)
    (t x y : ℕ) : ℚ × ℚ × ℚ :=
  let kx := 2*m.piF/(NX : ℚ)
  let ky := 2*m.piF/(NY : ℚ)
  let td := 1/(nu*(kx*kx+ky*ky))
  let X : ℚ := (x : ℚ) + 1/2
  let Y : ℚ := (y : ℚ) + 1/2
  let ux := -u_max*m.sqrtF (ky/kx)*m.cosF (kx*X)*m.sinF (ky*Y)
    *m.expF (-1*(t : ℚ)/td)
  let uy := u_max*m.sqrtF (kx/ky)*m.sinF (kx*X)*m.cosF (ky*Y)
    *m.expF (-1*(t : ℚ)/td)
  let P := -(1/4)*rho0*u_max*u_max
    *((ky/kx)*m.cosF (2*kx*X)+(kx/ky)*m.cosF (2*ky*Y))
    *m.expF (-2*(t : ℚ)/td)
  let rho := rho0 + 3*P
  (rho, ux, uy)

/-- LBM.cpp lines 54-70 (`taylor_green_cfp`): the analytic state as computed
by the variant used by `compute_flow_properties` (out-parameters `*r, *u,
*v`), transcribed from its own lines. -/
def taylor_green_cfp_pt (m : MathFns) (NX NY : ℕ) (nu u_max rho0 : ℚ)
    (t x y : ℕ) : ℚ × ℚ × ℚ :=
  let kx := 2*m.piF/(NX : ℚ)
  let ky := 2*m.piF/(NY : ℚ)
  let td := 1/(nu*(kx*kx+ky*ky))
  let X : ℚ := (x : ℚ) + 1/2
  let Y : ℚ := (y : ℚ) + 1/2
  let ux := -u_max*m.sqrtF (ky/kx)*m.cosF (kx*X)*m.sinF (ky*Y)
    *m.expF (-1*(t : ℚ)/td)
  let uy := u_max*m.sqrtF (kx/ky)*m.sinF (kx*X)*m.cosF (ky*Y)
    *m.expF (-1*(t : ℚ)/td)
  let P := -(1/4)*rho0*u_max*u_max
    *((ky/kx)*m.cosF (2*kx*X)+(kx/ky)*m.cosF (2*ky*Y))
    *m.expF (-2*(t : ℚ)/td)
  let rho := rho0 + 3*P
  (rho, ux, uy)

/-- LBM.cpp lines 42-53 (`taylor_green`, grid-wide overload): write the
per-site analytic state into the `r,u,v` fields at every grid site. -/
def taylor_green_grid (m : MathFns) (NX NY : ℕ) (nu u_max rho0 : ℚ) (t : ℕ)
    (r u v : ℕ → ℕ → ℚ) : (ℕ → ℕ → ℚ) × (ℕ → ℕ → ℚ) × (ℕ → ℕ → ℚ) :=
  (fun x y => if x < NX ∧ y < NY
      then (taylor_green_pt m NX NY nu u_max rho0 t x y).1 else r x y,
   fun x y => if x < NX ∧ y < NY
      then (taylor_green_pt m NX NY nu u_max rho0 t x y).2.1 else u x y,
   fun x y => if x < NX ∧ y < NY
      then (taylor_green_pt m NX NY nu u_max rho0 t x y).2.2 else v x y)

/-- LBM.cpp lines 205-249 (`compute_flow_properties`): total kinetic energy
and the three normalized L2 errors of the macroscopic fields against the
analytic reference `taylor_green_cfp` at timestep `t`. -/
def compute_flow_properties (m : MathFns) (NX NY : ℕ) (nu u_max rho0 : ℚ)
    (t : ℕ) (r u v : ℕ → ℕ → ℚ) : ℚ × ℚ × ℚ × ℚ :=
  let E := ((siteList NX NY).map fun p =>
    r p.1 p.2 * (u p.1 p.2 * u p.1 p.2 + v p.1 p.2 * v p.1 p.2)).sum
  let sumrhoe2 := ((siteList NX NY).map fun p =>
    (r p.1 p.2 - (taylor_green_cfp_pt m NX NY nu u_max rho0 t p.1 p.2).1)
      * (r p.1 p.2
        - (taylor_green_cfp_pt m NX NY nu u_max rho0 t p.1 p.2).1)).sum
  let sumuxe2 := ((siteList NX NY).map fun p =>
    (u p.1 p.2 - (taylor_green_cfp_pt m NX NY nu u_max rho0 t p.1 p.2).2.1)
      * (u p.1 p.2
        - (taylor_green_cfp_pt m NX NY nu u_max rho0 t p.1 p.2).2.1)).sum
  let sumuye2 := ((siteList NX NY).map fun p =>
    (v p.1 p.2 - (taylor_green_cfp_pt m NX NY nu u_max rho0 t p.1 p.2).2.2)
      * (v p.1 p.2
        - (taylor_green_cfp_pt m NX NY nu u_max rho0 t p.1 p.2).2.2)).sum
  let sumrhoa2 := ((siteList NX NY).map fun p =>
    ((taylor_green_cfp_pt m NX NY nu u_max rho0 t p.1 p.2).1 - rho0)
      * ((taylor_green_cfp_pt m NX NY nu u_max rho0 t p.1 p.2).1
        - rho0)).sum
  let sumuxa2 := ((siteList NX NY).map fun p =>
    (taylor_green_cfp_pt m NX NY nu u_max rho0 t p.1 p.2).2.1
      * (taylor_green_cfp_pt m NX NY nu u_max rho0 t p.1 p.2).2.1).sum
  let sumuya2 := ((siteList NX NY).map fun p =>
    (taylor_green_cfp_pt m NX NY nu u_max rho0 t p.1 p.2).2.2
      * (taylor_green_cfp_pt m NX NY nu u_max rho0 t p.1 p.2).2.2).sum
  (E, m.sqrtF (sumrhoe2/sumrhoa2), m.sqrtF (sumuxe2/sumuxa2),
    m.sqrtF (sumuye2/sumuya2))

/-- The same flow-properties computation with the analytic reference
replaced by the per-site `taylor_green` that seeds the initial condition;
compared against `compute_flow_properties` in C10. -/
def compute_flow_properties_seedref (m : MathFns) (NX NY : ℕ)
    (nu u_max rho0 : ℚ) (t : ℕ) (r u v : ℕ → ℕ → ℚ) : ℚ × ℚ × ℚ × ℚ :=
  let E := ((siteList NX NY).map fun p =>
    r p.1 p.2 * (u p.1 p.2 * u p.1 p.2 + v p.1 p.2 * v p.1 p.2)).sum
  let sumrhoe2 := ((siteList NX NY).map fun p =>
    (r p.1 p.2 - (taylor_green_pt m NX NY nu u_max rho0 t p.1 p.2).1)
      * (r p.1 p.2
        - (taylor_green_pt m NX NY nu u_max rho0 t p.1 p.2).1)).sum
  let sumuxe2 := ((siteList NX NY).map fun p =>
    (u p.1 p.2 - (taylor_green_pt m NX NY nu u_max rho0 t p.1 p.2).2.1)
      * (u p.1 p.2
        - (taylor_green_pt m NX NY nu u_max rho0 t p.1 p.2).2.1)).sum
  let sumuye2 := ((siteList NX NY).map fun p =>
    (v p.1 p.2 - (taylor_green_pt m NX NY nu u_max rho0 t p.1 p.2).2.2)
      * (v p.1 p.2
        - (taylor_green_pt m NX NY nu u_max rho0 t p.1 p.2).2.2)).sum
  let sumrhoa2 := ((siteList NX NY).map fun p =>
    ((taylor_green_pt m NX NY nu u_max rho0 t p.1 p.2).1 - rho0)
      * ((taylor_green_pt m NX NY nu u_max rho0 t p.1 p.2).1 - rho0)).sum
  let sumuxa2 := ((siteList NX NY).map fun p =>
    (taylor_green_pt m NX NY nu u_max rho0 t p.1 p.2).2.1
      * (taylor_green_pt m NX NY nu u_max rho0 t p.1 p.2).2.1).sum
  let sumuya2 := ((siteList NX NY).map fun p =>
    (taylor_green_pt m NX NY nu u_max rho0 t p.1 p.2).2.2
      * (taylor_green_pt m NX NY nu u_max rho0 t p.1 p.2).2.2).sum
  (E, m.sqrtF (sumrhoe2/sumrhoa2), m.sqrtF (sumuxe2/sumuxa2),
    m.sqrtF (sumuye2/sumuya2))

theorem upd2_self (g : ℕ → ℕ → ℚ) (x y : ℕ) (v : ℚ) :
    upd2 g x y v x y = v := by
  simp [upd2]

theorem upd2_other (g : ℕ → ℕ → ℚ) (x y : ℕ) (v : ℚ) {a b : ℕ}
    (h : ¬ (a = x ∧ b = y)) : upd2 g x y v a b = g a b := by
  simp only [upd2, if_neg h]

theorem updDirs_self (g : ℕ → ℕ → ℕ → ℚ) (x y : ℕ) (vals : ℕ → ℚ) {i : ℕ}
    (h : 1 ≤ i ∧ i ≤ 8) : updDirs g x y vals x y i = vals i := by
  simp [updDirs, h.1, h.2]

theorem updDirs_other (g : ℕ → ℕ → ℕ → ℚ) (x y : ℕ) (vals : ℕ → ℚ)
    {a b i : ℕ} (h : ¬ (a = x ∧ b = y)) : updDirs g x y vals a b i = g a b i := by
  simp only [updDirs]
  rw [if_neg]
  intro hc
  exact h ⟨hc.1, hc.2.1⟩

theorem updateSite_f0 (NX NY : ℕ) (nu : ℚ) (sv : Bool) (st : LBMState)
    (x y : ℕ) :
    (updateSite NX NY nu sv st x y).f0
      = upd2 st.f0 x y (collide nu (pull NX NY st.f0 st.f1 x y) 0) := rfl

theorem updateSite_f1 (NX NY : ℕ) (nu : ℚ) (sv : Bool) (st : LBMState)
    (x y : ℕ) : (updateSite NX NY nu sv st x y).f1 = st.f1 := rfl

theorem updateSite_f2 (NX NY : ℕ) (nu : ℚ) (sv : Bool) (st : LBMState)
    (x y : ℕ) :
    (updateSite NX NY nu sv st x y).f2
      = updDirs st.f2 x y (collide nu (pull NX NY st.f0 st.f1 x y)) := rfl

theorem updateSite_r_true (NX NY : ℕ) (nu : ℚ) (st : LBMState) (x y : ℕ) :
    (updateSite NX NY nu true st x y).r
      = upd2 st.r x y (rhoAt (pull NX NY st.f0 st.f1 x y)) := rfl

theorem updateSite_u_true (NX NY : ℕ) (nu : ℚ) (st : LBMState) (x y : ℕ) :
    (updateSite NX NY nu true st x y).u
      = upd2 st.u x y (uxAt (pull NX NY st.f0 st.f1 x y)) := rfl

theorem updateSite_v_true (NX NY : ℕ) (nu : ℚ) (st : LBMState) (x y : ℕ) :
    (updateSite NX NY nu true st x y).v
      = upd2 st.v x y (uyAt (pull NX NY st.f0 st.f1 x y)) := rfl

theorem updateSite_r_false (NX NY : ℕ) (nu : ℚ) (st : LBMState) (x y : ℕ) :
    (updateSite NX NY nu false st x y).r = st.r := rfl

theorem updateSite_u_false (NX NY : ℕ) (nu : ℚ) (st : LBMState) (x y : ℕ) :
    (updateSite NX NY nu false st x y).u = st.u := rfl

theorem updateSite_v_false (NX NY : ℕ) (nu : ℚ) (st : LBMState) (x y : ℕ) :
    (updateSite NX NY nu false st x y).v = st.v := rfl

theorem foldl_updateSite_f1 (NX NY : ℕ) (nu : ℚ) (sv : Bool) :
    ∀ (l : List (ℕ × ℕ)) (st : LBMState),
      (l.foldl (fun s p => updateSite NX NY nu sv s p.1 p.2) st).f1 = st.f1
  | [], _ => rfl
  | p :: l, st => by
      rw [List.foldl_cons, foldl_updateSite_f1 NX NY nu sv l, updateSite_f1]

theorem upd2_comm (g : ℕ → ℕ → ℚ) {x1 y1 x2 y2 : ℕ} (v1 v2 : ℚ)
    (h : ¬ (x2 = x1 ∧ y2 = y1)) :
    upd2 (upd2 g x1 y1 v1) x2 y2 v2 = upd2 (upd2 g x2 y2 v2) x1 y1 v1 := by
  funext a b
  simp only [upd2]
  split_ifs <;> first
    | rfl
    | (exfalso; apply h; constructor <;> omega)

theorem updDirs_comm (g : ℕ → ℕ → ℕ → ℚ) {x1 y1 x2 y2 : ℕ}
    (v1 v2 : ℕ → ℚ) (h : ¬ (x2 = x1 ∧ y2 = y1)) :
    updDirs (updDirs g x1 y1 v1) x2 y2 v2
      = updDirs (updDirs g x2 y2 v2) x1 y1 v1 := by
  funext a b i
  simp only [updDirs]
  split_ifs <;> first
    | rfl
    | (exfalso; apply h; constructor <;> omega)

theorem pull_upd {NX NY x y : ℕ} (f0 : ℕ → ℕ → ℚ) (f1 : ℕ → ℕ → ℕ → ℚ)
    (v : ℚ) {a b : ℕ} (h : ¬ (a = x ∧ b = y)) :
    pull NX NY (upd2 f0 x y v) f1 a b = pull NX NY f0 f1 a b := by
  funext i
  rcases i with _ | _ | _ | _ | _ | _ | _ | _ | _ | i
  · exact upd2_other f0 x y v h
  · rfl
  · rfl
  · rfl
  · rfl
  · rfl
  · rfl
  · rfl
  · rfl
  · rfl

theorem updateSite_comm (NX NY : ℕ) (nu : ℚ) (sv : Bool) (z : LBMState)
    (p q : ℕ × ℕ) :
    updateSite NX NY nu sv (updateSite NX NY nu sv z p.1 p.2) q.1 q.2
      = updateSite NX NY nu sv (updateSite NX NY nu sv z q.1 q.2) p.1 p.2 := by
  rcases eq_or_ne p q with rfl | hne
  · rfl
  have hpq : ¬ (p.1 = q.1 ∧ p.2 = q.2) := by
    intro hc
    apply hne
    rcases p with ⟨p1, p2⟩
    rcases q with ⟨q1, q2⟩
    simp_all
  have hqp : ¬ (q.1 = p.1 ∧ q.2 = p.2) := by
    intro hc
    exact hpq ⟨hc.1.symm, hc.2.symm⟩
  have hq : pull NX NY
      (upd2 z.f0 p.1 p.2 (collide nu (pull NX NY z.f0 z.f1 p.1 p.2) 0))
      z.f1 q.1 q.2 = pull NX NY z.f0 z.f1 q.1 q.2 :=
    pull_upd _ _ _ hqp
  have hp : pull NX NY
      (upd2 z.f0 q.1 q.2 (collide nu (pull NX NY z.f0 z.f1 q.1 q.2) 0))
      z.f1 p.1 p.2 = pull NX NY z.f0 z.f1 p.1 p.2 :=
    pull_upd _ _ _ hpq
  cases sv
  · refine LBMState.ext ?_ ?_ ?_ ?_ ?_ ?_
    · simp only [updateSite_f0, updateSite_f1, hq, hp]
      exact upd2_comm _ _ _ hqp
    · simp only [updateSite_f1]
    · simp only [updateSite_f2, updateSite_f0, updateSite_f1, hq, hp]
      exact updDirs_comm _ _ _ hqp
    · simp only [updateSite_r_false]
    · simp only [updateSite_u_false]
    · simp only [updateSite_v_false]
  · refine LBMState.ext ?_ ?_ ?_ ?_ ?_ ?_
    · simp only [updateSite_f0, updateSite_f1, hq, hp]
      exact upd2_comm _ _ _ hqp
    · simp only [updateSite_f1]
    · simp only [updateSite_f2, updateSite_f0, updateSite_f1, hq, hp]
      exact updDirs_comm _ _ _ hqp
    · simp only [updateSite_r_true, updateSite_f0, updateSite_f1, hq, hp]
      exact upd2_comm _ _ _ hqp
    · simp only [updateSite_u_true, updateSite_f0, updateSite_f1, hq, hp]
      exact upd2_comm _ _ _ hqp
    · simp only [updateSite_v_true, updateSite_f0, updateSite_f1, hq, hp]
      exact upd2_comm _ _ _ hqp

theorem mem_siteList {NX NY : ℕ} {p : ℕ × ℕ} (hp : p ∈ siteList NX NY) :
    p.1 < NX ∧ p.2 < NY := by
  simp only [siteList, List.mem_flatMap, List.mem_map, List.mem_range] at hp
  obtain ⟨y, hy, x, hx, rfl⟩ := hp
  exact ⟨hx, hy⟩

theorem siteList_mem {NX NY x y : ℕ} (hx : x < NX) (hy : y < NY) :
    (x, y) ∈ siteList NX NY := by
  simp only [siteList, List.mem_flatMap, List.mem_map, List.mem_range]
  exact ⟨y, hy, x, hx, rfl⟩

theorem pull_uniform {NX NY : ℕ} {rho0 : ℚ} {st : LBMState}
    (h : uniformPop NX NY rho0 st) {x y : ℕ} (hx : x < NX) (hy : y < NY) :
    ∀ i, i ≤ 8 → pull NX NY st.f0 st.f1 x y i = wq i * rho0 := by
  have hNX : 0 < NX := by omega
  have hNY : 0 < NY := by omega
  have hxm : (NX + x - 1) % NX < NX := Nat.mod_lt _ hNX
  have hym : (NY + y - 1) % NY < NY := Nat.mod_lt _ hNY
  have hxp : (x + 1) % NX < NX := Nat.mod_lt _ hNX
  have hyp : (y + 1) % NY < NY := Nat.mod_lt _ hNY
  intro i hi
  interval_cases i
  · exact h.1 x y hx hy
  · exact h.2 _ _ 1 hxm hy (by norm_num) (by norm_num)
  · exact h.2 _ _ 2 hx hym (by norm_num) (by norm_num)
  · exact h.2 _ _ 3 hxp hy (by norm_num) (by norm_num)
  · exact h.2 _ _ 4 hx hyp (by norm_num) (by norm_num)
  · exact h.2 _ _ 5 hxm hym (by norm_num) (by norm_num)
  · exact h.2 _ _ 6 hxp hym (by norm_num) (by norm_num)
  · exact h.2 _ _ 7 hxp hyp (by norm_num) (by norm_num)
  · exact h.2 _ _ 8 hxm hyp (by norm_num) (by norm_num)

theorem collide_uniform (nu rho0 : ℚ) (ft : ℕ → ℚ)
    (hft : ∀ i, i ≤ 8 → ft i = wq i * rho0) :
    ∀ i, i ≤ 8 → collide nu ft i = wq i * rho0 := by
  have h0 := hft 0 (by norm_num)
  have h1 := hft 1 (by norm_num)
  have h2 := hft 2 (by norm_num)
  have h3 := hft 3 (by norm_num)
  have h4 := hft 4 (by norm_num)
  have h5 := hft 5 (by norm_num)
  have h6 := hft 6 (by norm_num)
  have h7 := hft 7 (by norm_num)
  have h8 := hft 8 (by norm_num)
  have hrho : rhoAt ft = rho0 := by
    simp only [rhoAt, h0, h1, h2, h3, h4, h5, h6, h7, h8, wq, w0, ws, wd]
    ring
  have hux : uxAt ft = 0 := by
    simp only [uxAt, h1, h3, h5, h6, h7, h8, wq, ws, wd]
    ring
  have huy : uyAt ft = 0 := by
    simp only [uyAt, h2, h4, h5, h6, h7, h8, wq, ws, wd]
    ring
  intro i hi
  interval_cases i <;>
    · simp only [collide, hrho, hux, huy, h0, h1, h2, h3, h4, h5, h6, h7, h8,
        wq, w0, ws, wd]
      ring

theorem updateSite_uniform {NX NY : ℕ} {nu rho0 : ℚ} {sv : Bool}
    {st : LBMState} (h : uniformPop NX NY rho0 st) {x y : ℕ}
    (hx : x < NX) (hy : y < NY) :
    uniformPop NX NY rho0 (updateSite NX NY nu sv st x y) ∧
    ∀ a b i, 1 ≤ i → i ≤ 8 →
      (updateSite NX NY nu sv st x y).f2 a b i
        = if a = x ∧ b = y then wq i * rho0 else st.f2 a b i := by
  have hcol := collide_uniform nu rho0 _ (pull_uniform h hx hy)
  constructor
  · constructor
    · intro a b ha hb
      rw [updateSite_f0]
      by_cases hab : a = x ∧ b = y
      · obtain ⟨rfl, rfl⟩ := hab
        rw [upd2_self]
        exact hcol 0 (by norm_num)
      · rw [upd2_other _ _ _ _ hab]
        exact h.1 a b ha hb
    · intro a b i ha hb h1 h8
      rw [updateSite_f1]
      exact h.2 a b i ha hb h1 h8
  · intro a b i h1 h8
    rw [updateSite_f2]
    by_cases hab : a = x ∧ b = y
    · obtain ⟨rfl, rfl⟩ := hab
      rw [if_pos ⟨rfl, rfl⟩, updDirs_self _ _ _ _ ⟨h1, h8⟩]
      exact hcol i (by omega)
    · rw [if_neg hab, updDirs_other _ _ _ _ hab]

theorem foldl_uniform {NX NY : ℕ} {nu rho0 : ℚ} {sv : Bool} :
    ∀ (l : List (ℕ × ℕ)) (st : LBMState),
      (∀ p ∈ l, p.1 < NX ∧ p.2 < NY) → uniformPop NX NY rho0 st →
      uniformPop NX NY rho0
        (l.foldl (fun s p => updateSite NX NY nu sv s p.1 p.2) st) ∧
      ∀ a b i, 1 ≤ i → i ≤ 8 →
        (l.foldl (fun s p => updateSite NX NY nu sv s p.1 p.2) st).f2 a b i
          = if (a, b) ∈ l then wq i * rho0 else st.f2 a b i
  | [], st, _, hU => by
      refine ⟨hU, ?_⟩
      intro a b i _ _
      simp
  | p :: l, st, hl, hU => by
      have hp := hl p (List.mem_cons_self p l)
      have hstep := @updateSite_uniform NX NY nu rho0 sv st hU p.1 p.2 hp.1 hp.2
      have hrec := @foldl_uniform NX NY nu rho0 sv l
        (updateSite NX NY nu sv st p.1 p.2)
        (fun q hq => hl q (List.mem_cons_of_mem p hq)) hstep.1
      rw [List.foldl_cons]
      refine ⟨hrec.1, ?_⟩
      intro a b i h1 h8
      rw [hrec.2 a b i h1 h8]
      by_cases hmem : (a, b) ∈ l
      · rw [if_pos hmem, if_pos (List.mem_cons_of_mem p hmem)]
      · rw [if_neg hmem, hstep.2 a b i h1 h8]
        by_cases hab : a = p.1 ∧ b = p.2
        · have habp : (a, b) = p := by
            rcases p with ⟨p1, p2⟩
            simp_all
          rw [if_pos hab, if_pos (by rw [habp]; exact List.mem_cons_self p l)]
        · have hnot : ¬ ((a, b) ∈ p :: l) := by
            intro hc
            rcases List.mem_cons.mp hc with hc1 | hc2
            · apply hab
              rcases p with ⟨p1, p2⟩
              cases hc1
              exact ⟨rfl, rfl⟩
            · exact hmem hc2
          rw [if_neg hab, if_neg hnot]

theorem sweepSwap_uniform {NX NY : ℕ} {nu rho0 : ℚ} {sv : Bool}
    {st : LBMState} (h : uniformPop NX NY rho0 st) :
    uniformPop NX NY rho0 (sweepSwap NX NY nu sv st) := by
  have hfold := @foldl_uniform NX NY nu rho0 sv (siteList NX NY) st
    (fun p hp => mem_siteList hp) h
  constructor
  · intro x y hx hy
    exact hfold.1.1 x y hx hy
  · intro x y i hx hy h1 h8
    have hv := hfold.2 x y i h1 h8
    rw [if_pos (siteList_mem hx hy)] at hv
    exact hv

theorem natWrapM1 {NX x : ℕ} (hx : x < NX) :
    (((x : ℤ) - 1) % (NX : ℤ)).toNat = (NX + x - 1) % NX := by
  rcases Nat.eq_zero_or_pos x with h0 | h1
  · subst h0
    have hNX : 0 < NX := hx
    have e1 : (NX + 0 - 1) % NX = NX - 1 := by
      rw [Nat.add_zero]
      exact Nat.mod_eq_of_lt (by omega)
    have e2 : (((0:ℕ) : ℤ) - 1) % (NX : ℤ) = (NX : ℤ) - 1 := by
      have e3 : ((0:ℕ) : ℤ) - 1 = ((NX : ℤ) - 1) + (NX : ℤ) * (-1) := by
        push_cast; ring
      rw [e3, Int.add_mul_emod_self_left]
      exact Int.emod_eq_of_lt (by omega) (by omega)
    rw [e1, e2]
    omega
  · have e1 : (NX + x - 1) % NX = x - 1 := by
      have e3 : NX + x - 1 = (x - 1) + NX := by omega
      rw [e3, Nat.add_mod_right]
      exact Nat.mod_eq_of_lt (by omega)
    have e2 : ((x : ℤ) - 1) % (NX : ℤ) = (x : ℤ) - 1 :=
      Int.emod_eq_of_lt (by omega) (by omega)
    rw [e1, e2]
    omega

theorem natWrapP1 {NX x : ℕ} (hx : x < NX) :
    (((x : ℤ) + 1) % (NX : ℤ)).toNat = (x + 1) % NX := by
  rcases Nat.lt_or_ge (x + 1) NX with h | h
  · have e1 : (x + 1) % NX = x + 1 := Nat.mod_eq_of_lt h
    have e2 : ((x : ℤ) + 1) % (NX : ℤ) = (x : ℤ) + 1 :=
      Int.emod_eq_of_lt (by omega) (by omega)
    rw [e1, e2]
    omega
  · have hx1 : x + 1 = NX := by omega
    have e1 : (x + 1) % NX = 0 := by rw [hx1, Nat.mod_self]
    have e2 : ((x : ℤ) + 1) % (NX : ℤ) = 0 := by
      have e3 : (x : ℤ) + 1 = (NX : ℤ) := by omega
      rw [e3, Int.emod_self]
    rw [e1, e2]
    rfl

theorem natWrap0 {NX x : ℕ} (hx : x < NX) :
    (((x : ℤ) - 0) % (NX : ℤ)).toNat = x := by
  have e2 : ((x : ℤ) - 0) % (NX : ℤ) = (x : ℤ) := by
    rw [sub_zero]
    exact Int.emod_eq_of_lt (by omega) (by omega)
  rw [e2]
  omega

end LBMV

namespace LBMV

/-- C6: streaming pulls each non-rest direction `i` from the site displaced
by the negative of direction `i`'s velocity, with both coordinates wrapped
modulo the grid extents; the rest population is read locally; and at the
boundary column x = 0 the wrapped lookup for the +x-moving direction 1 reads
exactly the explicitly constructed index NX − 1. -/
theorem streaming_pulls_upstream_wrapped (NX NY : ℕ)
    (f0 : ℕ → ℕ → ℚ) (f1 : ℕ → ℕ → ℕ → ℚ) (x y : ℕ)
    (hx : x < NX) (hy : y < NY) :
    (∀ i, 1 ≤ i → i ≤ 8 →
      pull NX NY f0 f1 x y i = f1 (srcX NX x i) (srcY NY y i) i) ∧
    pull NX NY f0 f1 x y 0 = f0 x y ∧
    pull NX NY f0 f1 0 y 1 = f1 (NX - 1) y 1 := by
  have hNX : 0 < NX := by omega
  refine ⟨?_, rfl, ?_⟩
  · intro i h1 h8
    interval_cases i
    · show f1 ((NX + x - 1) % NX) y 1 = f1 (srcX NX x 1) (srcY NY y 1) 1
      rw [srcX, srcY, show cx 1 = 1 from rfl, show cy 1 = 0 from rfl,
        natWrapM1 hx, natWrap0 hy]
    · show f1 x ((NY + y - 1) % NY) 2 = f1 (srcX NX x 2) (srcY NY y 2) 2
      rw [srcX, srcY, show cx 2 = 0 from rfl, show cy 2 = 1 from rfl,
        natWrap0 hx, natWrapM1 hy]
    · show f1 ((x + 1) % NX) y 3 = f1 (srcX NX x 3) (srcY NY y 3) 3
      rw [srcX, srcY, show cx 3 = -1 from rfl, show cy 3 = 0 from rfl,
        show (x : ℤ) - -1 = (x : ℤ) + 1 from by ring, natWrapP1 hx,
        natWrap0 hy]
    · show f1 x ((y + 1) % NY) 4 = f1 (srcX NX x 4) (srcY NY y 4) 4
      rw [srcX, srcY, show cx 4 = 0 from rfl, show cy 4 = -1 from rfl,
        natWrap0 hx, show (y : ℤ) - -1 = (y : ℤ) + 1 from by ring,
        natWrapP1 hy]
    · show f1 ((NX + x - 1) % NX) ((NY + y - 1) % NY) 5
        = f1 (srcX NX x 5) (srcY NY y 5) 5
      rw [srcX, srcY, show cx 5 = 1 from rfl, show cy 5 = 1 from rfl,
        natWrapM1 hx, natWrapM1 hy]
    · show f1 ((x + 1) % NX) ((NY + y - 1) % NY) 6
        = f1 (srcX NX x 6) (srcY NY y 6) 6
      rw [srcX, srcY, show cx 6 = -1 from rfl, show cy 6 = 1 from rfl,
        show (x : ℤ) - -1 = (x : ℤ) + 1 from by ring, natWrapP1 hx,
        natWrapM1 hy]
    · show f1 ((x + 1) % NX) ((y + 1) % NY) 7
        = f1 (srcX NX x 7) (srcY NY y 7) 7
      rw [srcX, srcY, show cx 7 = -1 from rfl, show cy 7 = -1 from rfl,
        show (x : ℤ) - -1 = (x : ℤ) + 1 from by ring,
        show (y : ℤ) - -1 = (y : ℤ) + 1 from by ring, natWrapP1 hx,
        natWrapP1 hy]
    · show f1 ((NX + x - 1) % NX) ((y + 1) % NY) 8
        = f1 (srcX NX x 8) (srcY NY y 8) 8
      rw [srcX, srcY, show cx 8 = 1 from rfl, show cy 8 = -1 from rfl,
        natWrapM1 hx, show (y : ℤ) - -1 = (y : ℤ) + 1 from by ring,
        natWrapP1 hy]
  · show f1 ((NX + 0 - 1) % NX) y 1 = f1 (NX - 1) y 1
    have e1 : (NX + 0 - 1) % NX = NX - 1 := by
      rw [Nat.add_zero]
      exact Nat.mod_eq_of_lt (by omega)
    rw [e1]

/-- Witness for C6 at NX = NY = 4, site (0,0). -/
theorem streaming_pulls_upstream_wrapped_witness :
    (0 : ℕ) < 4 ∧ (0 : ℕ) < 4 ∧
    ((∀ i, 1 ≤ i → i ≤ 8 →
      pull 4 4 (fun _ _ => (0:ℚ)) (fun a b i => (a : ℚ) + b + i) 0 0 i
        = (srcX 4 0 i : ℚ) + (srcY 4 0 i : ℚ) + (i : ℚ)) ∧
    pull 4 4 (fun _ _ => (0:ℚ)) (fun a b i => (a : ℚ) + b + i) 0 0 0
      = 0 ∧
    pull 4 4 (fun _ _ => (0:ℚ)) (fun a b i => (a : ℚ) + b + i) 0 0 1
      = ((4 - 1 : ℕ) : ℚ) + ((0 : ℕ) : ℚ) + ((1 : ℕ) : ℚ)) :=
  ⟨by decide, by decide,
    streaming_pulls_upstream_wrapped 4 4 (fun _ _ => (0:ℚ))
      (fun a b i => (a : ℚ) + b + i) 0 0 (by decide) (by decide)⟩

/-- C1: the driver's end-of-timestep rebinding is not a role swap.  The first
transition happens to alternate (step 1 reads the allocation step 0 wrote),
but from then on both views are rebound to the same fixed allocations every
iteration, so step 2 reads the allocation `ptr_f2` while step 1 wrote
`ptr_f1`; the claimed alternation "step n+1 reads the buffer step n wrote"
fails at n = 1. -/
theorem driver_generation_alternation_fails :
    (gensAtStep 1).1 = (gensAtStep 0).2 ∧
    (gensAtStep 2).1 ≠ (gensAtStep 1).2 ∧
    ¬ (∀ n : ℕ, (gensAtStep (n+1)).1 = (gensAtStep n).2) :=
  ⟨by decide, by decide, fun h => absurd (h 1) (by decide)⟩

/-- C4: `save_scalar`'s dump buffer does depend on the timestep-index
argument `n`: at the `n = 0` save the copy loop runs zero iterations, so the
buffer handed to `fwrite` still holds its uninitialized contents (here 0)
instead of the field's values (here constantly 1); the first file value
differs from the row-major dump the claim prescribes. -/
theorem save_scalar_dump_depends_on_index :
    saveBuffer (fun _ _ => 1) 0 (fun _ => 0) 0 = 0 ∧
    rowMajorDump 2 (fun _ _ => 1) 0 = 1 ∧
    saveBuffer (fun _ _ => 1) 0 (fun _ => 0) 0 ≠
      rowMajorDump 2 (fun _ _ => 1) 0 := by
  refine ⟨rfl, rfl, ?_⟩
  decide

/-- C3: executing the per-site updates of `stream_collide_save` over the
sites in any order — the row-major order or any permutation of the site
list — produces identical final contents of `f0`, of `f2`, and (when the
save flag is set) of the `r`, `u`, `v` fields. -/
theorem sweep_order_independent (NX NY : ℕ) (nu : ℚ) (sv : Bool)
    (st : LBMState) (l : List (ℕ × ℕ)) (hl : l.Perm (siteList NX NY)) :
    (l.foldl (fun s p => updateSite NX NY nu sv s p.1 p.2) st).f0
      = (stream_collide_save NX NY nu st sv).f0 ∧
    (l.foldl (fun s p => updateSite NX NY nu sv s p.1 p.2) st).f2
      = (stream_collide_save NX NY nu st sv).f2 ∧
    (sv = true →
      (l.foldl (fun s p => updateSite NX NY nu sv s p.1 p.2) st).r
        = (stream_collide_save NX NY nu st sv).r ∧
      (l.foldl (fun s p => updateSite NX NY nu sv s p.1 p.2) st).u
        = (stream_collide_save NX NY nu st sv).u ∧
      (l.foldl (fun s p => updateSite NX NY nu sv s p.1 p.2) st).v
        = (stream_collide_save NX NY nu st sv).v) := by
  have h2 : l.foldl (fun s p => updateSite NX NY nu sv s p.1 p.2) st
      = stream_collide_save NX NY nu st sv :=
    hl.foldl_eq' (fun p _ q _ z => updateSite_comm NX NY nu sv z p q) st
  rw [h2]
  exact ⟨rfl, rfl, fun _ => ⟨rfl, rfl, rfl⟩⟩

/-- Witness for C3: the reversed site order on a 2×1 grid. -/
theorem sweep_order_independent_witness :
    List.Perm [((1:ℕ), (0:ℕ)), (0, 0)] (siteList 2 1) ∧
    (([((1:ℕ), (0:ℕ)), (0, 0)].foldl
        (fun s p => updateSite 2 1 (1/20) false s p.1 p.2)
        (LBMState.mk (fun _ _ => 1) (fun _ _ _ => 1) (fun _ _ _ => 0)
          (fun _ _ => 0) (fun _ _ => 0) (fun _ _ => 0))).f0
      = (stream_collide_save 2 1 (1/20)
          (LBMState.mk (fun _ _ => 1) (fun _ _ _ => 1) (fun _ _ _ => 0)
            (fun _ _ => 0) (fun _ _ => 0) (fun _ _ => 0)) false).f0 ∧
    ([((1:ℕ), (0:ℕ)), (0, 0)].foldl
        (fun s p => updateSite 2 1 (1/20) false s p.1 p.2)
        (LBMState.mk (fun _ _ => 1) (fun _ _ _ => 1) (fun _ _ _ => 0)
          (fun _ _ => 0) (fun _ _ => 0) (fun _ _ => 0))).f2
      = (stream_collide_save 2 1 (1/20)
          (LBMState.mk (fun _ _ => 1) (fun _ _ _ => 1) (fun _ _ _ => 0)
            (fun _ _ => 0) (fun _ _ => 0) (fun _ _ => 0)) false).f2 ∧
    (false = true →
      ([((1:ℕ), (0:ℕ)), (0, 0)].foldl
          (fun s p => updateSite 2 1 (1/20) false s p.1 p.2)
          (LBMState.mk (fun _ _ => 1) (fun _ _ _ => 1) (fun _ _ _ => 0)
            (fun _ _ => 0) (fun _ _ => 0) (fun _ _ => 0))).r
        = (stream_collide_save 2 1 (1/20)
            (LBMState.mk (fun _ _ => 1) (fun _ _ _ => 1) (fun _ _ _ => 0)
              (fun _ _ => 0) (fun _ _ => 0) (fun _ _ => 0)) false).r ∧
      ([((1:ℕ), (0:ℕ)), (0, 0)].foldl
          (fun s p => updateSite 2 1 (1/20) false s p.1 p.2)
          (LBMState.mk (fun _ _ => 1) (fun _ _ _ => 1) (fun _ _ _ => 0)
            (fun _ _ => 0) (fun _ _ => 0) (fun _ _ => 0))).u
        = (stream_collide_save 2 1 (1/20)
            (LBMState.mk (fun _ _ => 1) (fun _ _ _ => 1) (fun _ _ _ => 0)
              (fun _ _ => 0) (fun _ _ => 0) (fun _ _ => 0)) false).u ∧
      ([((1:ℕ), (0:ℕ)), (0, 0)].foldl
          (fun s p => updateSite 2 1 (1/20) false s p.1 p.2)
          (LBMState.mk (fun _ _ => 1) (fun _ _ _ => 1) (fun _ _ _ => 0)
            (fun _ _ => 0) (fun _ _ => 0) (fun _ _ => 0))).v
        = (stream_collide_save 2 1 (1/20)
            (LBMState.mk (fun _ _ => 1) (fun _ _ _ => 1) (fun _ _ _ => 0)
              (fun _ _ => 0) (fun _ _ => 0) (fun _ _ => 0)) false).v)) :=
  ⟨by decide,
    sweep_order_independent 2 1 (1/20) false
      (LBMState.mk (fun _ _ => 1) (fun _ _ _ => 1) (fun _ _ _ => 0)
        (fun _ _ => 0) (fun _ _ => 0) (fun _ _ => 0))
      [((1:ℕ), (0:ℕ)), (0, 0)] (by decide)⟩

/-- C7: at every site whose streamed density is strictly positive, the
kernel's velocity moments are the signed directional sums divided by the
density, and every population written — the rest population into `f0` and
directions 1..8 into `f2` — is `(1 - 1/tau) * old + (1/tau) * feq` with
`1/tau = 2/(6 nu + 1)` and `feq` the second-order equilibrium of
`init_equilibrium` evaluated at the just-computed moments. -/
theorem stream_collide_relaxation_formula (NX NY : ℕ) (nu : ℚ) (sv : Bool)
    (st : LBMState) (x y : ℕ) (ft : ℕ → ℚ)
    (hft : ft = pull NX NY st.f0 st.f1 x y)
    (_hrho : 0 < rhoAt ft) :
    uxAt ft = (ft 1 + ft 5 + ft 8 - (ft 3 + ft 6 + ft 7)) / rhoAt ft ∧
    uyAt ft = (ft 2 + ft 5 + ft 6 - (ft 4 + ft 7 + ft 8)) / rhoAt ft ∧
    (updateSite NX NY nu sv st x y).f0 x y
      = (1 - 2/(6*nu+1)) * ft 0
        + (2/(6*nu+1)) * feq (rhoAt ft) (uxAt ft) (uyAt ft) 0 ∧
    ∀ i, 1 ≤ i → i ≤ 8 →
      (updateSite NX NY nu sv st x y).f2 x y i
        = (1 - 2/(6*nu+1)) * ft i
          + (2/(6*nu+1)) * feq (rhoAt ft) (uxAt ft) (uyAt ft) i := by
  subst hft
  refine ⟨?_, ?_, ?_, ?_⟩
  · simp only [uxAt]
    ring
  · simp only [uyAt]
    ring
  · rw [updateSite_f0, upd2_self]
    simp only [collide, feq]
    try ring
  · intro i h1 h8
    interval_cases i <;>
      · rw [updateSite_f2, updDirs_self _ _ _ _ (by norm_num)]
        simp only [collide, feq]
        try ring

/-- Witness for C7: a 1×1 grid whose single site holds unit populations. -/
theorem stream_collide_relaxation_formula_witness :
    ((fun i : ℕ => if i ≤ 8 then (1:ℚ) else 0) = pull 1 1
        (LBMState.mk (fun _ _ => 1) (fun _ _ _ => 1) (fun _ _ _ => 0)
          (fun _ _ => 0) (fun _ _ => 0) (fun _ _ => 0)).f0
        (LBMState.mk (fun _ _ => 1) (fun _ _ _ => 1) (fun _ _ _ => 0)
          (fun _ _ => 0) (fun _ _ => 0) (fun _ _ => 0)).f1 0 0) ∧
    0 < rhoAt (fun i : ℕ => if i ≤ 8 then (1:ℚ) else 0) ∧
    (uxAt (fun i : ℕ => if i ≤ 8 then (1:ℚ) else 0)
      = ((fun i : ℕ => if i ≤ 8 then (1:ℚ) else 0) 1 + (fun i : ℕ => if i ≤ 8 then (1:ℚ) else 0) 5
          + (fun i : ℕ => if i ≤ 8 then (1:ℚ) else 0) 8
          - ((fun i : ℕ => if i ≤ 8 then (1:ℚ) else 0) 3 + (fun i : ℕ => if i ≤ 8 then (1:ℚ) else 0) 6
            + (fun i : ℕ => if i ≤ 8 then (1:ℚ) else 0) 7)) / rhoAt (fun i : ℕ => if i ≤ 8 then (1:ℚ) else 0) ∧
    uyAt (fun i : ℕ => if i ≤ 8 then (1:ℚ) else 0)
      = ((fun i : ℕ => if i ≤ 8 then (1:ℚ) else 0) 2 + (fun i : ℕ => if i ≤ 8 then (1:ℚ) else 0) 5
          + (fun i : ℕ => if i ≤ 8 then (1:ℚ) else 0) 6
          - ((fun i : ℕ => if i ≤ 8 then (1:ℚ) else 0) 4 + (fun i : ℕ => if i ≤ 8 then (1:ℚ) else 0) 7
            + (fun i : ℕ => if i ≤ 8 then (1:ℚ) else 0) 8)) / rhoAt (fun i : ℕ => if i ≤ 8 then (1:ℚ) else 0) ∧
    (updateSite 1 1 (1/20) false
        (LBMState.mk (fun _ _ => 1) (fun _ _ _ => 1) (fun _ _ _ => 0)
          (fun _ _ => 0) (fun _ _ => 0) (fun _ _ => 0)) 0 0).f0 0 0
      = (1 - 2/(6*(1/20)+1)) * (fun i : ℕ => if i ≤ 8 then (1:ℚ) else 0) 0
        + (2/(6*(1/20)+1)) * feq (rhoAt (fun i : ℕ => if i ≤ 8 then (1:ℚ) else 0))
            (uxAt (fun i : ℕ => if i ≤ 8 then (1:ℚ) else 0)) (uyAt (fun i : ℕ => if i ≤ 8 then (1:ℚ) else 0)) 0 ∧
    ∀ i, 1 ≤ i → i ≤ 8 →
      (updateSite 1 1 (1/20) false
          (LBMState.mk (fun _ _ => 1) (fun _ _ _ => 1) (fun _ _ _ => 0)
            (fun _ _ => 0) (fun _ _ => 0) (fun _ _ => 0)) 0 0).f2 0 0 i
        = (1 - 2/(6*(1/20)+1)) * (fun i : ℕ => if i ≤ 8 then (1:ℚ) else 0) i
          + (2/(6*(1/20)+1)) * feq (rhoAt (fun i : ℕ => if i ≤ 8 then (1:ℚ) else 0))
              (uxAt (fun i : ℕ => if i ≤ 8 then (1:ℚ) else 0)) (uyAt (fun i : ℕ => if i ≤ 8 then (1:ℚ) else 0)) i) := by
  have hft : (fun i : ℕ => if i ≤ 8 then (1:ℚ) else 0) = pull 1 1
      (LBMState.mk (fun _ _ => 1) (fun _ _ _ => 1) (fun _ _ _ => 0)
        (fun _ _ => 0) (fun _ _ => 0) (fun _ _ => 0)).f0
      (LBMState.mk (fun _ _ => 1) (fun _ _ _ => 1) (fun _ _ _ => 0)
        (fun _ _ => 0) (fun _ _ => 0) (fun _ _ => 0)).f1 0 0 := by
    funext i
    rcases i with _ | _ | _ | _ | _ | _ | _ | _ | _ | i
    · rfl
    · rfl
    · rfl
    · rfl
    · rfl
    · rfl
    · rfl
    · rfl
    · rfl
    · rw [if_neg (by omega)]
      rfl
  have hrho : 0 < rhoAt (fun i : ℕ => if i ≤ 8 then (1:ℚ) else 0) := by
    norm_num [rhoAt]
  exact ⟨hft, hrho,
    stream_collide_relaxation_formula 1 1 (1/20) false
      (LBMState.mk (fun _ _ => 1) (fun _ _ _ => 1) (fun _ _ _ => 0)
        (fun _ _ => 0) (fun _ _ => 0) (fun _ _ => 0)) 0 0
      (fun i : ℕ => if i ≤ 8 then (1:ℚ) else 0) hft hrho⟩

/-- C8: recomputing the moments of the nine equilibrium populations of
`init_equilibrium`'s formula reproduces the macroscopic state exactly in
exact arithmetic (and the D2Q9 weights sum to one). -/
theorem equilibrium_moment_projection_fixed_point (rho ux uy : ℚ)
    (hrho : rho ≠ 0) :
    w0 + 4*ws + 4*wd = 1 ∧
    rhoAt (feq rho ux uy) = rho ∧
    uxAt (feq rho ux uy) = ux ∧
    uyAt (feq rho ux uy) = uy := by
  have hsum : rhoAt (feq rho ux uy) = rho := by
    simp only [rhoAt, feq, w0, ws, wd] <;> ring
  refine ⟨by norm_num [w0, ws, wd], hsum, ?_, ?_⟩
  · have hnum : feq rho ux uy 1 + feq rho ux uy 5 + feq rho ux uy 8
        - (feq rho ux uy 3 + feq rho ux uy 6 + feq rho ux uy 7)
        = rho * ux := by
      simp only [feq, w0, ws, wd] <;> ring
    simp only [uxAt, hsum, hnum]
    field_simp
  · have hnum : feq rho ux uy 2 + feq rho ux uy 5 + feq rho ux uy 6
        - (feq rho ux uy 4 + feq rho ux uy 7 + feq rho ux uy 8)
        = rho * uy := by
      simp only [feq, w0, ws, wd] <;> ring
    simp only [uyAt, hsum, hnum]
    field_simp

/-- Witness for C8 at (rho, ux, uy) = (2, 1/3, -1/5). -/
theorem equilibrium_moment_projection_fixed_point_witness :
    (2 : ℚ) ≠ 0 ∧
    (w0 + 4*ws + 4*wd = 1 ∧
    rhoAt (feq 2 (1/3) (-1/5)) = 2 ∧
    uxAt (feq 2 (1/3) (-1/5)) = 1/3 ∧
    uyAt (feq 2 (1/3) (-1/5)) = -1/5) :=
  ⟨by norm_num,
    equilibrium_moment_projection_fixed_point 2 (1/3) (-1/5) (by norm_num)⟩

/-- C2 counterexample: the sweep does overwrite part of the source
generation in place.  On a 1×1 grid with rest population 1 and directional
populations 0 (viscosity 1/20), the sweep changes `f0[0,0]` from 1 to
17/117, so it is not the case that reads-only access to the source
generation (`f0` together with `f1`) leaves it intact. -/
theorem in_place_rest_overwrite_counterexample :
    ¬ (((stream_collide_save 1 1 (1/20)
          (LBMState.mk (fun _ _ => 1) (fun _ _ _ => 0) (fun _ _ _ => 0)
            (fun _ _ => 0) (fun _ _ => 0) (fun _ _ => 0)) false).f1
        = (LBMState.mk (fun _ _ => (1:ℚ)) (fun _ _ _ => 0) (fun _ _ _ => 0)
            (fun _ _ => 0) (fun _ _ => 0) (fun _ _ => 0)).f1) ∧
       ((stream_collide_save 1 1 (1/20)
          (LBMState.mk (fun _ _ => 1) (fun _ _ _ => 0) (fun _ _ _ => 0)
            (fun _ _ => 0) (fun _ _ => 0) (fun _ _ => 0)) false).f0
        = (LBMState.mk (fun _ _ => (1:ℚ)) (fun _ _ _ => 0) (fun _ _ _ => 0)
            (fun _ _ => 0) (fun _ _ => 0) (fun _ _ => 0)).f0)) := by
  intro h
  have h00 := congrFun (congrFun h.2 0) 0
  have hlist : siteList 1 1 = [(0, 0)] := rfl
  have hval : (stream_collide_save 1 1 (1/20)
      (LBMState.mk (fun _ _ => 1) (fun _ _ _ => 0) (fun _ _ _ => 0)
        (fun _ _ => 0) (fun _ _ => 0) (fun _ _ => 0)) false).f0 0 0
      = 17/117 := by
    simp only [stream_collide_save, hlist, List.foldl_cons, List.foldl_nil]
    rw [updateSite_f0, upd2_self]
    norm_num [collide, pull, rhoAt, uxAt, uyAt, w0]
  rw [hval] at h00
  norm_num at h00

/-- C2 amended: during a sweep, every directional-population read targets the
current generation `f1` and every directional-population write targets the
next generation `f2` (`f1` is never modified); the rest population, however,
lives in the single shared buffer `f0` and is updated in place — each site's
update writes `f0` only at that site, storing a value computed from the
populations read there before the write. -/
theorem sweep_reads_current_writes_next_amended (NX NY : ℕ) (nu : ℚ)
    (sv : Bool) (st : LBMState) (x y a b : ℕ) (h : ¬ (a = x ∧ b = y)) :
    (stream_collide_save NX NY nu st sv).f1 = st.f1 ∧
    (updateSite NX NY nu sv st x y).f0 a b = st.f0 a b ∧
    (∀ i, (updateSite NX NY nu sv st x y).f2 a b i = st.f2 a b i) ∧
    (updateSite NX NY nu sv st x y).f0 x y
      = collide nu (pull NX NY st.f0 st.f1 x y) 0 := by
  refine ⟨?_, ?_, ?_, ?_⟩
  · exact foldl_updateSite_f1 NX NY nu sv (siteList NX NY) st
  · rw [updateSite_f0, upd2_other _ _ _ _ h]
  · intro i
    rw [updateSite_f2, updDirs_other _ _ _ _ h]
  · rw [updateSite_f0, upd2_self]

/-- Witness for the amended C2 at NX = NY = 2, site (0,0), other cell (1,0). -/
theorem sweep_reads_current_writes_next_amended_witness :
    (¬ ((1:ℕ) = 0 ∧ (0:ℕ) = 0)) ∧
    ((stream_collide_save 2 2 (1/20)
        (LBMState.mk (fun _ _ => 1) (fun _ _ _ => 0) (fun _ _ _ => 0)
          (fun _ _ => 0) (fun _ _ => 0) (fun _ _ => 0)) false).f1
      = (LBMState.mk (fun _ _ => (1:ℚ)) (fun _ _ _ => 0) (fun _ _ _ => 0)
          (fun _ _ => 0) (fun _ _ => 0) (fun _ _ => 0)).f1 ∧
    (updateSite 2 2 (1/20) false
        (LBMState.mk (fun _ _ => 1) (fun _ _ _ => 0) (fun _ _ _ => 0)
          (fun _ _ => 0) (fun _ _ => 0) (fun _ _ => 0)) 0 0).f0 1 0
      = (LBMState.mk (fun _ _ => (1:ℚ)) (fun _ _ _ => 0) (fun _ _ _ => 0)
          (fun _ _ => 0) (fun _ _ => 0) (fun _ _ => 0)).f0 1 0 ∧
    (∀ i, (updateSite 2 2 (1/20) false
        (LBMState.mk (fun _ _ => 1) (fun _ _ _ => 0) (fun _ _ _ => 0)
          (fun _ _ => 0) (fun _ _ => 0) (fun _ _ => 0)) 0 0).f2 1 0 i
      = (LBMState.mk (fun _ _ => (1:ℚ)) (fun _ _ _ => 0) (fun _ _ _ => 0)
          (fun _ _ => 0) (fun _ _ => 0) (fun _ _ => 0)).f2 1 0 i) ∧
    (updateSite 2 2 (1/20) false
        (LBMState.mk (fun _ _ => 1) (fun _ _ _ => 0) (fun _ _ _ => 0)
          (fun _ _ => 0) (fun _ _ => 0) (fun _ _ => 0)) 0 0).f0 0 0
      = collide (1/20)
          (pull 2 2
            (LBMState.mk (fun _ _ => (1:ℚ)) (fun _ _ _ => 0) (fun _ _ _ => 0)
              (fun _ _ => 0) (fun _ _ => 0) (fun _ _ => 0)).f0
            (LBMState.mk (fun _ _ => (1:ℚ)) (fun _ _ _ => 0) (fun _ _ _ => 0)
              (fun _ _ => 0) (fun _ _ => 0) (fun _ _ => 0)).f1 0 0) 0) :=
  ⟨by omega,
    sweep_reads_current_writes_next_amended 2 2 (1/20) false
      (LBMState.mk (fun _ _ => 1) (fun _ _ _ => 0) (fun _ _ _ => 0)
        (fun _ _ => 0) (fun _ _ => 0) (fun _ _ => 0)) 0 0 1 0 (by omega)⟩

/-- C9: if every grid site holds the uniform quiescent equilibrium state —
rest population `w0 * rho0`, directional populations `wq i * rho0` — then one
application of `stream_collide_save` reproduces exactly the same population
fields (`f0` unchanged, the written generation `f2` equal on the grid to the
read generation `f1`), and the state stays uniform after arbitrarily many
timesteps (sweep followed by a generation role-flip), with no drift in exact
arithmetic. -/
theorem quiescent_equilibrium_fixed_point (NX NY : ℕ) (nu rho0 : ℚ)
    (sv : Bool) (st : LBMState) (h : uniformPop NX NY rho0 st) :
    (∀ x y, x < NX → y < NY →
      (stream_collide_save NX NY nu st sv).f0 x y = st.f0 x y) ∧
    (∀ x y i, x < NX → y < NY → 1 ≤ i → i ≤ 8 →
      (stream_collide_save NX NY nu st sv).f2 x y i = st.f1 x y i) ∧
    ∀ n, uniformPop NX NY rho0 ((sweepSwap NX NY nu sv)^[n] st) := by
  have hfold := @foldl_uniform NX NY nu rho0 sv (siteList NX NY) st
    (fun p hp => mem_siteList hp) h
  refine ⟨?_, ?_, ?_⟩
  · intro x y hx hy
    have h1 := hfold.1.1 x y hx hy
    rw [h.1 x y hx hy]
    exact h1
  · intro x y i hx hy h1 h8
    have hv := hfold.2 x y i h1 h8
    rw [if_pos (siteList_mem hx hy)] at hv
    rw [h.2 x y i hx hy h1 h8]
    exact hv
  · intro n
    induction n with
    | zero => simpa using h
    | succ k ih =>
        rw [Function.iterate_succ_apply']
        exact sweepSwap_uniform ih

/-- Witness for C9 on a 1×1 grid with rho0 = 1, nu = 1/20. -/
theorem quiescent_equilibrium_fixed_point_witness :
    uniformPop 1 1 1
      (LBMState.mk (fun _ _ => w0 * 1) (fun _ _ i => wq i * 1)
        (fun _ _ _ => 0) (fun _ _ => 0) (fun _ _ => 0) (fun _ _ => 0)) ∧
    ((∀ x y, x < 1 → y < 1 →
      (stream_collide_save 1 1 (1/20)
        (LBMState.mk (fun _ _ => w0 * 1) (fun _ _ i => wq i * 1)
          (fun _ _ _ => 0) (fun _ _ => 0) (fun _ _ => 0) (fun _ _ => 0))
        false).f0 x y
        = (LBMState.mk (fun _ _ => w0 * 1) (fun _ _ i => wq i * 1)
            (fun _ _ _ => 0) (fun _ _ => 0) (fun _ _ => 0)
            (fun _ _ => 0)).f0 x y) ∧
    (∀ x y i, x < 1 → y < 1 → 1 ≤ i → i ≤ 8 →
      (stream_collide_save 1 1 (1/20)
        (LBMState.mk (fun _ _ => w0 * 1) (fun _ _ i => wq i * 1)
          (fun _ _ _ => 0) (fun _ _ => 0) (fun _ _ => 0) (fun _ _ => 0))
        false).f2 x y i
        = (LBMState.mk (fun _ _ => w0 * 1) (fun _ _ i => wq i * 1)
            (fun _ _ _ => 0) (fun _ _ => 0) (fun _ _ => 0)
            (fun _ _ => 0)).f1 x y i) ∧
    ∀ n, uniformPop 1 1 1 ((sweepSwap 1 1 (1/20) false)^[n]
      (LBMState.mk (fun _ _ => w0 * 1) (fun _ _ i => wq i * 1)
        (fun _ _ _ => 0) (fun _ _ => 0) (fun _ _ => 0) (fun _ _ => 0)))) :=
  ⟨⟨fun _ _ _ _ => rfl, fun _ _ _ _ _ _ _ => rfl⟩,
    quiescent_equilibrium_fixed_point 1 1 (1/20) 1 false
      (LBMState.mk (fun _ _ => w0 * 1) (fun _ _ i => wq i * 1)
        (fun _ _ _ => 0) (fun _ _ => 0) (fun _ _ => 0) (fun _ _ => 0))
      ⟨fun _ _ _ _ => rfl, fun _ _ _ _ _ _ _ => rfl⟩⟩

/-- C10: the per-site `taylor_green` and `taylor_green_cfp` evaluate the same
closed-form expressions — at every timestep and site, and for any values of
the library math routines, they return identical density and velocity — so
the analytic reference of `compute_flow_properties`'s L2 metrics is the same
function that seeds the initial condition through the grid-wide
`taylor_green`: substituting the seeding function for the reference leaves
the computed flow properties unchanged. -/
theorem taylor_green_reference_consistency (m : MathFns) (NX NY : ℕ)
    (nu u_max rho0 : ℚ) (t x y : ℕ) (r u v : ℕ → ℕ → ℚ)
    (hx : x < NX) (hy : y < NY) :
    taylor_green_pt m NX NY nu u_max rho0 t x y
      = taylor_green_cfp_pt m NX NY nu u_max rho0 t x y ∧
    (taylor_green_grid m NX NY nu u_max rho0 t r u v).1 x y
      = (taylor_green_cfp_pt m NX NY nu u_max rho0 t x y).1 ∧
    (taylor_green_grid m NX NY nu u_max rho0 t r u v).2.1 x y
      = (taylor_green_cfp_pt m NX NY nu u_max rho0 t x y).2.1 ∧
    (taylor_green_grid m NX NY nu u_max rho0 t r u v).2.2 x y
      = (taylor_green_cfp_pt m NX NY nu u_max rho0 t x y).2.2 ∧
    compute_flow_properties m NX NY nu u_max rho0 t r u v
      = compute_flow_properties_seedref m NX NY nu u_max rho0 t r u v := by
  refine ⟨rfl, ?_, ?_, ?_, rfl⟩
  · simp only [taylor_green_grid]
    rw [if_pos ⟨hx, hy⟩]
    rfl
  · simp only [taylor_green_grid]
    rw [if_pos ⟨hx, hy⟩]
    rfl
  · simp only [taylor_green_grid]
    rw [if_pos ⟨hx, hy⟩]
    rfl

/-- Witness for C10 at NX = NY = 4, site (1,1), t = 0. -/
theorem taylor_green_reference_consistency_witness :
    (1 : ℕ) < 4 ∧ (1 : ℕ) < 4 ∧
    (taylor_green_pt (MathFns.mk (fun q => q) (fun q => q) (fun q => q)
        (fun q => q) 3) 4 4 (1/20) (1/100) 1 0 1 1
      = taylor_green_cfp_pt (MathFns.mk (fun q => q) (fun q => q)
          (fun q => q) (fun q => q) 3) 4 4 (1/20) (1/100) 1 0 1 1 ∧
    (taylor_green_grid (MathFns.mk (fun q => q) (fun q => q) (fun q => q)
        (fun q => q) 3) 4 4 (1/20) (1/100) 1 0 (fun _ _ => 0) (fun _ _ => 0)
        (fun _ _ => 0)).1 1 1
      = (taylor_green_cfp_pt (MathFns.mk (fun q => q) (fun q => q)
          (fun q => q) (fun q => q) 3) 4 4 (1/20) (1/100) 1 0 1 1).1 ∧
    (taylor_green_grid (MathFns.mk (fun q => q) (fun q => q) (fun q => q)
        (fun q => q) 3) 4 4 (1/20) (1/100) 1 0 (fun _ _ => 0) (fun _ _ => 0)
        (fun _ _ => 0)).2.1 1 1
      = (taylor_green_cfp_pt (MathFns.mk (fun q => q) (fun q => q)
          (fun q => q) (fun q => q) 3) 4 4 (1/20) (1/100) 1 0 1 1).2.1 ∧
    (taylor_green_grid (MathFns.mk (fun q => q) (fun q => q) (fun q => q)
        (fun q => q) 3) 4 4 (1/20) (1/100) 1 0 (fun _ _ => 0) (fun _ _ => 0)
        (fun _ _ => 0)).2.2 1 1
      = (taylor_green_cfp_pt (MathFns.mk (fun q => q) (fun q => q)
          (fun q => q) (fun q => q) 3) 4 4 (1/20) (1/100) 1 0 1 1).2.2 ∧
    compute_flow_properties (MathFns.mk (fun q => q) (fun q => q)
        (fun q => q) (fun q => q) 3) 4 4 (1/20) (1/100) 1 0 (fun _ _ => 0)
        (fun _ _ => 0) (fun _ _ => 0)
      = compute_flow_properties_seedref (MathFns.mk (fun q => q)
          (fun q => q) (fun q => q) (fun q => q) 3) 4 4 (1/20) (1/100) 1 0
          (fun _ _ => 0) (fun _ _ => 0) (fun _ _ => 0)) :=
  ⟨by norm_num, by norm_num,
    taylor_green_reference_consistency
      (MathFns.mk (fun q => q) (fun q => q) (fun q => q) (fun q => q) 3)
      4 4 (1/20) (1/100) 1 0 1 1 (fun _ _ => 0) (fun _ _ => 0)
      (fun _ _ => 0) (by norm_num) (by norm_num)⟩

/-- C5: when `fopen` fails, `save_scalar` does not report and continue — it
passes the NULL stream to `fwrite` and `fclose`, which is undefined behavior,
regardless of whether the write would have failed. -/
theorem save_scalar_open_failure_not_recoverable :
    save_scalar_export none false = ExportOutcome.undefinedBehavior ∧
    save_scalar_export none true = ExportOutcome.undefinedBehavior ∧
    save_scalar_export none false ≠ ExportOutcome.reportedAndContinued ∧
    save_scalar_export none false ≠ ExportOutcome.ok := by
  refine ⟨rfl, rfl, ?_, ?_⟩ <;> decide

end LBMV
